import Mathlib

/-!
Verification development for the food-order backend microservices.

The definitions below are shallow embeddings of the JavaScript handlers:

* `getRestaurants` embeds the `GET /restaurants` handler of
  `services/restaurant-service/index.js`: it reads the Redis key
  `"restaurants"`, returns the cached rows on a hit, and otherwise queries
  the database once and stores the rows with `SETEX` and TTL 60 seconds.
  Redis expiry is modelled by `CacheEntry`/`redisGet`: an entry is visible
  while `now < insertedAt + ttl`.
* `stepA`/`stepB`/`exec` embed two concurrent executions of that same
  handler, each caller an atomic cache-check step followed by an atomic
  load-and-store step, interleaved by an explicit schedule.
* `Breaker` is modelled from the spec (the gateway has no circuit breaker
  in the source).
* `mountMatches`/`routeFirst` embed the express mount table of
  `services/api-gateway/index.js`; `routeLongest` is written from the
  spec's words for comparison.
* `paymentsHandler`, `authLogin`, `postOrders` embed the payment, auth and
  order handlers.
-/

universe u v

/-- A cached value in Redis: payload, insertion time and TTL in seconds,
as produced by `client.setEx(key, ttl, value)`. -/
structure CacheEntry (α : Type u) where
  value : α
  insertedAt : Nat
  ttl : Nat
deriving DecidableEq, Repr

/-- Redis serves a key only while `now < insertedAt + ttl`; afterwards the
key is gone. -/
def CacheEntry.live {α : Type u} (e : CacheEntry α) (now : Nat) : Bool :=
  now < e.insertedAt + e.ttl

/-- Model of `client.get("restaurants")`: the single cache slot for the
`"restaurants"` key, respecting expiry. -/
def redisGet {α : Type u} (store : Option (CacheEntry α)) (now : Nat) : Option α :=
  match store with
  | some e => if e.live now then some e.value else none
  | none => none

/-- Model of `client.setEx("restaurants", ttl, v)` at time `now`. -/
def redisSetEx {α : Type u} (now ttl : Nat) (v : α) : Option (CacheEntry α) :=
  some ⟨v, now, ttl⟩

/-- Result of one run of the `GET /restaurants` handler: the HTTP response,
the cache slot afterwards, and how many database queries ran. -/
structure GetResult (ε : Type u) (α : Type v) where
  response : Except ε α
  store : Option (CacheEntry α)
  dbCalls : Nat

/-- Embedding of the `GET /restaurants` handler: read the cache; on a hit
respond with the cached rows; on a miss run `db.query("SELECT * FROM
restaurants")` (whose outcome is `dbResult`), and on success store the rows
with `setEx("restaurants", 60, rows)` and respond with them.  A rejected
query throws out of the handler before `setEx` runs. -/
def getRestaurants {ε : Type u} {α : Type v} (store : Option (CacheEntry α)) (now : Nat)
    (dbResult : Except ε α) : GetResult ε α :=
  match redisGet store now with
  | some v => ⟨.ok v, store, 0⟩
  | none =>
    match dbResult with
    | .error e => ⟨.error e, store, 1⟩
    | .ok rows => ⟨.ok rows, redisSetEx now 60 rows, 1⟩

/-- State of two concurrent `GET /restaurants` requests: the shared cache
slot, the count of database queries so far, and each caller's program
counter and response.  `pc = 0`: about to read the cache; `pc = 1`: saw a
miss, about to query and store; `pc = 2`: done via the miss path;
`pc = 3`: done via a cache hit. -/
structure ConcState (α : Type u) where
  store : Option (CacheEntry α)
  dbCalls : Nat
  pcA : Nat
  pcB : Nat
  respA : Option α
  respB : Option α
deriving DecidableEq, Repr

/-- Both callers start before their cache read, with a cold cache. -/
def concInit (α : Type u) : ConcState α :=
  ⟨none, 0, 0, 0, none, none⟩

/-- One atomic step of caller A: at `pc = 0` the `await client.get`
completes (hit → respond, miss → proceed); at `pc = 1` the database query
and `setEx` complete and A responds with the loaded rows. -/
def stepA {α : Type u} (rows : α) (now : Nat) (s : ConcState α) : ConcState α :=
  if s.pcA = 0 then
    match redisGet s.store now with
    | some v => { s with pcA := 3, respA := some v }
    | none => { s with pcA := 1 }
  else if s.pcA = 1 then
    { s with store := redisSetEx now 60 rows, dbCalls := s.dbCalls + 1,
             pcA := 2, respA := some rows }
  else s

/-- One atomic step of caller B, symmetric to `stepA`. -/
def stepB {α : Type u} (rows : α) (now : Nat) (s : ConcState α) : ConcState α :=
  if s.pcB = 0 then
    match redisGet s.store now with
    | some v => { s with pcB := 3, respB := some v }
    | none => { s with pcB := 1 }
  else if s.pcB = 1 then
    { s with store := redisSetEx now 60 rows, dbCalls := s.dbCalls + 1,
             pcB := 2, respB := some rows }
  else s

/-- Run a schedule: `true` steps caller A, `false` steps caller B. -/
def exec {α : Type u} (rows : α) (now : Nat) : List Bool → ConcState α → ConcState α
  | [], s => s
  | c :: cs, s => exec rows now cs (if c then stepA rows now s else stepB rows now s)

/-- A caller is done when it has responded (via either path). -/
def callerDone (pc : Nat) : Prop := pc = 2 ∨ pc = 3

instance : DecidablePred callerDone := fun pc => by
  unfold callerDone; infer_instance

/-- Invariant of the two-caller interleaving, used to bound the number of
database queries and pin down the responses. -/
def ConcInv {α : Type u} (rows : α) (now : Nat) (s : ConcState α) : Prop :=
  s.dbCalls = (if s.pcA = 2 then 1 else 0) + (if s.pcB = 2 then 1 else 0)
  ∧ (callerDone s.pcA → s.respA = some rows)
  ∧ (callerDone s.pcB → s.respB = some rows)
  ∧ s.pcA ≤ 3 ∧ s.pcB ≤ 3
  ∧ ((s.store = none ∧ (s.pcA = 0 ∨ s.pcA = 1) ∧ (s.pcB = 0 ∨ s.pcB = 1))
     ∨ (s.store = some ⟨rows, now, 60⟩ ∧ (s.pcA = 2 ∨ s.pcB = 2)))

/-- Modelled from the spec: breaker states `Closed`, `Open`, `HalfOpen`
(§4.3).  The gateway source (`services/api-gateway/index.js`) contains no
circuit breaker; the spec presents one as an illustrative design. -/
inductive BState where
  | Closed
  | Open
  | HalfOpen
deriving DecidableEq, Repr

/-- Modelled from the spec: per-upstream breaker state — current state,
consecutive-failure count, last-transition timestamp, failure threshold
and cool-down duration (§3, `BreakerState`).  Missing from the source. -/
structure Breaker where
  state : BState
  failures : Nat
  lastTransition : Nat
  threshold : Nat
  cooldown : Nat
deriving DecidableEq, Repr

/-- Modelled from the spec: a fresh breaker starts `Closed` with zero
consecutive failures. -/
def Breaker.init (threshold cooldown : Nat) : Breaker :=
  ⟨.Closed, 0, 0, threshold, cooldown⟩

/-- Whether a call is let through to the transport or short-circuited
with a `CircuitOpen` error. -/
inductive Gate where
  | Attempt
  | CircuitOpen
deriving DecidableEq, Repr

/-- Modelled from the spec: gating of an incoming call at time `now`.
`Closed` passes it through; `Open` short-circuits with `CircuitOpen`
until the cool-down elapses, after which the breaker moves to `HalfOpen`
and lets exactly this one trial through; while the trial is in flight
(`HalfOpen`) every other caller gets `CircuitOpen` with no network
attempt.  Missing from the source. -/
def Breaker.beginCall (b : Breaker) (now : Nat) : Gate × Breaker :=
  match b.state with
  | .Closed => (.Attempt, b)
  | .Open =>
    if now < b.lastTransition + b.cooldown then (.CircuitOpen, b)
    else (.Attempt, { b with state := .HalfOpen, lastTransition := now })
  | .HalfOpen => (.CircuitOpen, b)

/-- Modelled from the spec: feedback of a completed attempt.  In `Closed`,
success resets the consecutive-failure counter and failure increments it,
transitioning to `Open` when the threshold is reached; in `HalfOpen`, the
trial's success closes the breaker and resets the counter, its failure
reopens the breaker and restarts the cool-down.  Missing from the
source. -/
def Breaker.record (b : Breaker) (now : Nat) (success : Bool) : Breaker :=
  match b.state with
  | .Closed =>
    if success then { b with failures := 0 }
    else if b.threshold ≤ b.failures + 1 then
      { b with state := .Open, failures := b.failures + 1, lastTransition := now }
    else { b with failures := b.failures + 1 }
  | .HalfOpen =>
    if success then { b with state := .Closed, failures := 0, lastTransition := now }
    else { b with state := .Open, lastTransition := now }
  | .Open => b

/-- Fold a sequence of completed attempts (timestamp, success) into the
breaker. -/
def Breaker.recordAll (b : Breaker) (evts : List (Nat × Bool)) : Breaker :=
  evts.foldl (fun acc e => acc.record e.1 e.2) b

/-- Express mount matching, as `app.use(p, ...)` does it: the mount `p`
must be a leading segment of the path, i.e. the path continues with `/`
or ends right there. -/
def mountMatches : List Char → List Char → Bool
  | [], [] => true
  | [], c :: _ => c == '/'
  | _ :: _, [] => false
  | a :: as, b :: bs => a == b && mountMatches as bs

/-- Embedding of express routing over the gateway's `app.use` table:
mounts are tried in registration order, the first match wins, and a path
matching no mount falls through (no proxy target). -/
def routeFirst : List (String × String) → String → Option String
  | [], _ => none
  | (p, svc) :: rest, path =>
    if mountMatches p.toList path.toList then some svc else routeFirst rest path

/-- Pick the entry with the longer mount, keeping the current one on
ties. -/
def betterOf (cur : Option (String × String)) (e : String × String) :
    Option (String × String) :=
  match cur with
  | none => some e
  | some c => if c.1.length < e.1.length then some e else some c

/-- Written from the spec's words, for comparison with `routeFirst`:
"longest-matching registered prefix wins; no match yields NoRoute". -/
def routeLongest (table : List (String × String)) (path : String) : Option String :=
  (List.foldl betterOf none
    (table.filter (fun e => mountMatches e.1.toList path.toList))).map Prod.snd

/-- The gateway's static mount table from `services/api-gateway/index.js`. -/
def gatewayRoutes : List (String × String) :=
  [("/auth", "http://auth-service:4001"),
   ("/restaurants", "http://restaurant-service:4002"),
   ("/orders", "http://order-service:4003"),
   ("/payments", "http://payment-service:4004")]

/-- What the gateway does with an inbound path: forward to a proxy target
or fall through to express's not-found response. -/
inductive GatewayAction where
  | Forward (target : String)
  | NotFound
deriving DecidableEq, Repr

/-- Embedding of the gateway's dispatch: resolve the mount table; a
resolved mount forwards to its target, no match yields the not-found
response and nothing is forwarded. -/
def gatewayRespond (path : String) : GatewayAction :=
  match routeFirst gatewayRoutes path with
  | some t => .Forward t
  | none => .NotFound

/-- Response body of `POST /payments`. -/
structure PaymentResponse where
  status : String
deriving DecidableEq, Repr

/-- Embedding of the `POST /payments` handler of
`services/payment-service/index.js`: it ignores the request entirely and
responds `{ status: "PAYMENT_SUCCESS" }`. -/
def paymentsHandler {β : Type u} {γ : Type v} (_body : β) (_headers : γ) : PaymentResponse :=
  ⟨"PAYMENT_SUCCESS"⟩

/-- A row of the `users` table created by the auth service: id, email,
bcrypt password hash, role. -/
structure UserRow where
  id : String
  email : String
  password : String
  role : String
deriving DecidableEq, Repr

/-- Outcome of `POST /auth/login`: `res.sendStatus(401)` or a JSON body
with a signed JWT; the token is modelled by its payload fields
(`jwt.sign({ id, role }, secret)`). -/
inductive LoginResult where
  | unauthorized
  | token (payloadId payloadRole : String)
deriving DecidableEq, Repr

/-- Embedding of the `POST /auth/login` handler of the auth service:
`SELECT * FROM users WHERE email=$1` is the filter, an empty result is
401, otherwise the first row's hash is compared with
`bcrypt.compareSync` (the opaque `compare` argument); a mismatch is 401
and a match signs a JWT carrying the row's id and role. -/
def authLogin (compare : String → String → Bool) (users : List UserRow)
    (email password : String) : LoginResult :=
  match users.filter (fun u => u.email == email) with
  | [] => .unauthorized
  | user :: _ =>
    if compare password user.password then .token user.id user.role
    else .unauthorized

/-- One job on the bullmq `order-events` queue:
`orderQueue.add(name, { orderId })`. -/
structure OrderJob where
  name : String
  orderId : String
deriving DecidableEq, Repr

/-- Persistent state touched by `POST /orders`: the `orders` table rows
`(id, status)` and the job queue. -/
structure OrdersState where
  orders : List (String × String)
  queue : List OrderJob
deriving DecidableEq, Repr

/-- Response body of `POST /orders`. -/
structure OrderResponse where
  orderId : String
  status : String
deriving DecidableEq, Repr

/-- Embedding of the `POST /orders` handler of
`services/order-service/index.js`: generate an id (`uuid()`, the `id`
argument), insert `(id, "PLACED")` into `orders`, enqueue an
`"order.created"` job with that `orderId`, and respond with the same id
and status. -/
def postOrders (s : OrdersState) (id : String) : OrdersState × OrderResponse :=
  ({ orders := s.orders ++ [(id, "PLACED")],
     queue := s.queue ++ [⟨"order.created", id⟩] },
   ⟨id, "PLACED"⟩)

/-! Theorems about the cache-aside read path. -/

/-- C1: with a live cache entry, `GET /restaurants` responds with the
cached value, leaves the cache unchanged, and runs zero database queries,
whatever the database would have returned. -/
theorem getRestaurants_hit {ε : Type u} {α : Type v} (e : CacheEntry α) (now : Nat)
    (dbResult : Except ε α) (hlive : e.live now = true) :
    getRestaurants (some e) now dbResult = ⟨.ok e.value, some e, 0⟩ := by
  simp [getRestaurants, redisGet, hlive]

/-- Helper: an expired key stays expired at any later time. -/
theorem redisGet_none_mono {α : Type u} (store : Option (CacheEntry α)) (now now2 : Nat)
    (hmiss : redisGet store now = none) (hle : now ≤ now2) :
    redisGet store now2 = none := by
  cases store with
  | none => rfl
  | some e =>
    by_cases h : now < e.insertedAt + e.ttl
    · simp [redisGet, CacheEntry.live, h] at hmiss
    · have h2 : ¬ now2 < e.insertedAt + e.ttl := by omega
      simp [redisGet, CacheEntry.live, h2]

/-- C2: the handler gives stored entries TTL 60; an entry is served only
while `now < insertedAt + ttl`, and an expired entry behaves exactly like
an absent one.  Scenario: a cold read at t=0 queries the database once and
stores the rows with TTL 60; a read at t=30 returns the cached rows with
no database query; a read at t=61 queries the database again. -/
theorem cache_ttl_sixty {α : Type v} (rows rows2 rows3 : α) :
    ((getRestaurants (ε := Unit) none 0 (.ok rows)).dbCalls = 1
      ∧ (getRestaurants (ε := Unit) none 0 (.ok rows)).store = some ⟨rows, 0, 60⟩)
    ∧ (getRestaurants (ε := Unit) (some ⟨rows, 0, 60⟩) 30 (.ok rows2)).response = .ok rows
    ∧ (getRestaurants (ε := Unit) (some ⟨rows, 0, 60⟩) 30 (.ok rows2)).dbCalls = 0
    ∧ (getRestaurants (ε := Unit) (some ⟨rows, 0, 60⟩) 61 (.ok rows3)).dbCalls = 1
    ∧ (∀ (e : CacheEntry α) (now : Nat) (db : Except Unit α),
        (getRestaurants (some e) now db).dbCalls = 0 ↔ now < e.insertedAt + e.ttl)
    ∧ (∀ (e : CacheEntry α) (now : Nat) (db : Except Unit α),
        ¬ now < e.insertedAt + e.ttl →
        (getRestaurants (some e) now db).response = (getRestaurants none now db).response
        ∧ (getRestaurants (some e) now db).dbCalls = (getRestaurants none now db).dbCalls
        ∧ redisGet (some e) now = (none : Option α)) := by
  refine ⟨⟨by simp [getRestaurants, redisGet, redisSetEx],
           by simp [getRestaurants, redisGet, redisSetEx]⟩,
         by simp [getRestaurants, redisGet, CacheEntry.live],
         by simp [getRestaurants, redisGet, CacheEntry.live],
         by simp [getRestaurants, redisGet, CacheEntry.live, redisSetEx],
         ?_, ?_⟩
  · intro e now db
    by_cases h : now < e.insertedAt + e.ttl
    · simp [getRestaurants, redisGet, CacheEntry.live, h]
    · cases db <;> simp [getRestaurants, redisGet, CacheEntry.live, h]
  · intro e now db h
    cases db <;> simp [getRestaurants, redisGet, CacheEntry.live, h]

/-- Witness for `cache_ttl_sixty`: an entry inserted at 0 with TTL 60,
read at 61, behaves as an absent entry. -/
theorem cache_ttl_sixty_witness :
    (getRestaurants (ε := Unit) (some ⟨(7 : Nat), 0, 60⟩) 61 (.ok 5)).response =
      (getRestaurants (ε := Unit) (none : Option (CacheEntry Nat)) 61 (.ok 5)).response
    ∧ (getRestaurants (ε := Unit) (some ⟨(7 : Nat), 0, 60⟩) 61 (.ok 5)).dbCalls =
      (getRestaurants (ε := Unit) (none : Option (CacheEntry Nat)) 61 (.ok 5)).dbCalls
    ∧ redisGet (some ⟨(7 : Nat), 0, 60⟩) 61 = none :=
  (cache_ttl_sixty (α := Nat) 7 5 5).2.2.2.2.2 ⟨7, 0, 60⟩ 61 (.ok 5) (by decide)

/-- C7: when the database query rejects on a cache miss, the handler
throws before `setEx` runs: the cache is unchanged (an absent key stays
absent), the error is the response, and any later call with the resulting
cache state runs the query again — the handler never retries by itself
(exactly one query per call). -/
theorem getRestaurants_loader_failure {ε : Type u} {α : Type v} (now : Nat) (err : ε)
    (store : Option (CacheEntry α)) (hmiss : redisGet store now = none) :
    (getRestaurants store now (.error err)).store = store
    ∧ (getRestaurants store now (.error err)).response = .error err
    ∧ (getRestaurants store now (.error err)).dbCalls = 1
    ∧ (∀ (now2 : Nat) (db2 : Except ε α), now ≤ now2 →
        (getRestaurants (getRestaurants store now (.error err)).store now2 db2).dbCalls = 1) := by
  refine ⟨by simp [getRestaurants, hmiss], by simp [getRestaurants, hmiss],
         by simp [getRestaurants, hmiss], ?_⟩
  intro now2 db2 hle
  have hstore : (getRestaurants store now (.error err)).store = store := by
    simp [getRestaurants, hmiss]
  rw [hstore]
  have h2 := redisGet_none_mono store now now2 hmiss hle
  cases db2 <;> simp [getRestaurants, h2]

/-- Witness for `getRestaurants_loader_failure` at a cold cache. -/
theorem getRestaurants_loader_failure_witness :
    (getRestaurants (α := Nat) none 0 (.error "db down")).store = none
    ∧ (getRestaurants (α := Nat) none 0 (.error "db down")).response = .error "db down"
    ∧ (getRestaurants (α := Nat) none 0 (.error "db down")).dbCalls = 1
    ∧ (getRestaurants (ε := String) (α := Nat)
        (getRestaurants none 0 (.error "db down")).store 5 (.ok 3)).dbCalls = 1 := by
  have h := getRestaurants_loader_failure (α := Nat) 0 "db down" none rfl
  exact ⟨h.1, h.2.1, h.2.2.1, h.2.2.2 5 (.ok 3) (by decide)⟩

/-- Witness for `getRestaurants_hit` at a concrete live entry. -/
theorem getRestaurants_hit_witness :
    getRestaurants (ε := Nat) (some ⟨7, 0, 60⟩) 30 (.ok (5 : Nat)) =
      ⟨.ok 7, some ⟨7, 0, 60⟩, 0⟩ :=
  getRestaurants_hit (ε := Nat) ⟨7, 0, 60⟩ 30 (.ok 5) (by decide)

/-- Helper: the invariant holds in the initial two-caller state. -/
theorem concInv_init {α : Type u} (rows : α) (now : Nat) : ConcInv rows now (concInit α) := by
  simp [ConcInv, concInit, callerDone]

/-- Helper: a step of caller A preserves the invariant. -/
theorem concInv_stepA {α : Type u} (rows : α) (now : Nat) (s : ConcState α)
    (h : ConcInv rows now s) : ConcInv rows now (stepA rows now s) := by
  obtain ⟨st, db, pa, pb, ra, rb⟩ := s
  obtain ⟨hdb, hra, hrb, hpa, hpb, hst⟩ := h
  simp only at hdb hra hrb hpa hpb hst
  by_cases hpa0 : pa = 0
  · subst hpa0
    rcases hst with ⟨hn, _, hB⟩ | ⟨hsome, hor⟩
    · subst hn
      refine ⟨?_, ?_, ?_, ?_, ?_, ?_⟩ <;>
        simp_all [stepA, redisGet, callerDone, ConcInv]
    · subst hsome
      have hb2 : pb = 2 := by omega
      refine ⟨?_, ?_, ?_, ?_, ?_, ?_⟩ <;>
        simp_all [stepA, redisGet, CacheEntry.live, callerDone, ConcInv]
  · by_cases hpa1 : pa = 1
    · subst hpa1
      have hdb2 : db = if pb = 2 then 1 else 0 := by simpa using hdb
      simp_all [stepA, redisSetEx, callerDone, ConcInv]
      omega
    · have hs : stepA rows now ⟨st, db, pa, pb, ra, rb⟩ = ⟨st, db, pa, pb, ra, rb⟩ := by
        simp [stepA, hpa0, hpa1]
      rw [hs]
      exact ⟨hdb, hra, hrb, hpa, hpb, hst⟩

/-- Helper: a step of caller B preserves the invariant. -/
theorem concInv_stepB {α : Type u} (rows : α) (now : Nat) (s : ConcState α)
    (h : ConcInv rows now s) : ConcInv rows now (stepB rows now s) := by
  obtain ⟨st, db, pa, pb, ra, rb⟩ := s
  obtain ⟨hdb, hra, hrb, hpa, hpb, hst⟩ := h
  simp only at hdb hra hrb hpa hpb hst
  by_cases hpb0 : pb = 0
  · subst hpb0
    rcases hst with ⟨hn, hA, _⟩ | ⟨hsome, hor⟩
    · subst hn
      refine ⟨?_, ?_, ?_, ?_, ?_, ?_⟩ <;>
        simp_all [stepB, redisGet, callerDone, ConcInv]
    · subst hsome
      have ha2 : pa = 2 := by omega
      refine ⟨?_, ?_, ?_, ?_, ?_, ?_⟩ <;>
        simp_all [stepB, redisGet, CacheEntry.live, callerDone, ConcInv]
  · by_cases hpb1 : pb = 1
    · subst hpb1
      have hdb2 : db = if pa = 2 then 1 else 0 := by simpa using hdb
      simp_all [stepB, redisSetEx, callerDone, ConcInv]
    · have hs : stepB rows now ⟨st, db, pa, pb, ra, rb⟩ = ⟨st, db, pa, pb, ra, rb⟩ := by
        simp [stepB, hpb0, hpb1]
      rw [hs]
      exact ⟨hdb, hra, hrb, hpa, hpb, hst⟩

/-- Helper: the invariant is preserved along any schedule. -/
theorem concInv_exec {α : Type u} (rows : α) (now : Nat) (sched : List Bool)
    (s : ConcState α) (h : ConcInv rows now s) : ConcInv rows now (exec rows now sched s) := by
  induction sched generalizing s with
  | nil => exact h
  | cons c cs ih =>
    cases c
    · exact ih _ (concInv_stepB rows now s h)
    · exact ih _ (concInv_stepA rows now s h)

/-- C3 counterexample: two concurrent `GET /restaurants` requests on a
cold key, interleaved so that both check the cache before either stores
(schedule A-check, B-check, A-load, B-load), both complete but the
database is queried twice, not once: the handler has no single-flight
de-duplication. -/
theorem conc_single_flight_counterexample :
    (exec (5 : Nat) 0 [true, false, true, false] (concInit Nat)).dbCalls = 2
    ∧ callerDone (exec (5 : Nat) 0 [true, false, true, false] (concInit Nat)).pcA
    ∧ callerDone (exec (5 : Nat) 0 [true, false, true, false] (concInit Nat)).pcB
    ∧ (exec (5 : Nat) 0 [true, false, true, false] (concInit Nat)).dbCalls ≠ 1 := by
  decide

/-- C3 amended: for two concurrent requests on a cold key, the database is
queried at most twice (once per caller that saw a miss) and at least once
when both complete; every completed caller receives the loaded rows.  The
"exactly once" part of the original claim fails (see the counterexample);
the agreement of results holds. -/
theorem conc_loader_bounds {α : Type u} (rows : α) (now : Nat) (sched : List Bool) :
    (exec rows now sched (concInit α)).dbCalls ≤ 2
    ∧ (callerDone (exec rows now sched (concInit α)).pcA →
       callerDone (exec rows now sched (concInit α)).pcB →
       1 ≤ (exec rows now sched (concInit α)).dbCalls
       ∧ (exec rows now sched (concInit α)).respA = some rows
       ∧ (exec rows now sched (concInit α)).respB = some rows) := by
  obtain ⟨hdb, hra, hrb, hpa, hpb, hst⟩ :=
    concInv_exec rows now sched (concInit α) (concInv_init rows now)
  refine ⟨by rw [hdb]; split <;> split <;> omega, fun hA hB => ⟨?_, hra hA, hrb hB⟩⟩
  simp only [callerDone] at hA hB
  rcases hst with ⟨_, hA01, _⟩ | ⟨_, hor⟩
  · omega
  · rw [hdb]
    rcases hor with h2 | h2 <;> simp [h2]

/-- Witness for `conc_loader_bounds`: schedule A-check, A-load, B-check;
B hits the cache, both complete with the loaded rows. -/
theorem conc_loader_bounds_witness :
    1 ≤ (exec (5 : Nat) 0 [true, true, false] (concInit Nat)).dbCalls
    ∧ (exec (5 : Nat) 0 [true, true, false] (concInit Nat)).respA = some 5
    ∧ (exec (5 : Nat) 0 [true, true, false] (concInit Nat)).respB = some 5 :=
  (conc_loader_bounds (5 : Nat) 0 [true, true, false]).2 (by decide) (by decide)

/-! Theorems about the circuit breaker modelled from the spec. -/

/-- C4: a breaker starts `Closed` with a zero consecutive-failure count;
in `Closed` a success resets the counter and a failure below the
threshold increments it; with threshold 5, five consecutive failures
transition the breaker to `Open`; and while `Open`, before the cool-down
has elapsed, every call returns `CircuitOpen` with no transport
attempt.  (Modelled from the spec: the gateway source has no breaker.) -/
theorem breaker_closed_to_open :
    (∀ th cd : Nat, (Breaker.init th cd).state = .Closed
      ∧ (Breaker.init th cd).failures = 0)
    ∧ (∀ (b : Breaker) (now : Nat), b.state = .Closed →
        (b.record now true).failures = 0 ∧ (b.record now true).state = .Closed)
    ∧ (∀ (b : Breaker) (now : Nat), b.state = .Closed → b.failures + 1 < b.threshold →
        (b.record now false).failures = b.failures + 1
        ∧ (b.record now false).state = .Closed)
    ∧ (∀ t1 t2 t3 t4 t5 cd : Nat,
        ((Breaker.init 5 cd).recordAll
          [(t1, false), (t2, false), (t3, false), (t4, false), (t5, false)]).state = .Open
        ∧ ((Breaker.init 5 cd).recordAll
          [(t1, false), (t2, false), (t3, false), (t4, false), (t5, false)]).failures = 5)
    ∧ (∀ (b : Breaker) (now : Nat), b.state = .Open →
        now < b.lastTransition + b.cooldown →
        b.beginCall now = (.CircuitOpen, b)) := by
  refine ⟨fun th cd => ⟨rfl, rfl⟩, ?_, ?_, ?_, ?_⟩
  · intro b now h
    obtain ⟨st, f, lt, th, cdn⟩ := b
    simp only at h
    subst h
    simp [Breaker.record]
  · intro b now h hlt
    obtain ⟨st, f, lt, th, cdn⟩ := b
    simp only at h hlt
    subst h
    have : ¬ th ≤ f + 1 := by omega
    simp [Breaker.record, this]
  · intro t1 t2 t3 t4 t5 cd
    simp [Breaker.recordAll, Breaker.init, List.foldl, Breaker.record]
  · intro b now h hlt
    obtain ⟨st, f, lt, th, cdn⟩ := b
    simp only at h hlt
    subst h
    simp [Breaker.beginCall, hlt]

/-- Witness for `breaker_closed_to_open` on a concrete breaker with
threshold 5 and cool-down 30. -/
theorem breaker_closed_to_open_witness :
    ((Breaker.mk .Closed 2 0 5 30).record 7 true).failures = 0
    ∧ ((Breaker.mk .Closed 2 0 5 30).record 7 false).failures = 3
    ∧ ((Breaker.mk .Closed 2 0 5 30).record 7 false).state = .Closed
    ∧ (Breaker.mk .Open 5 10 5 30).beginCall 20 =
        (.CircuitOpen, Breaker.mk .Open 5 10 5 30) :=
  ⟨(breaker_closed_to_open.2.1 ⟨.Closed, 2, 0, 5, 30⟩ 7 rfl).1,
   (breaker_closed_to_open.2.2.1 ⟨.Closed, 2, 0, 5, 30⟩ 7 rfl (by decide)).1,
   (breaker_closed_to_open.2.2.1 ⟨.Closed, 2, 0, 5, 30⟩ 7 rfl (by decide)).2,
   breaker_closed_to_open.2.2.2.2 ⟨.Open, 5, 10, 5, 30⟩ 20 rfl (by decide)⟩

/-- C5: once the cool-down has elapsed, the next call is let through as
the single trial and the breaker moves to `HalfOpen`; a successful trial
closes the breaker and resets the failure count; a failed trial reopens
it with the cool-down restarted (calls before the new deadline are
short-circuited); and any caller while the trial is in flight gets
`CircuitOpen` with no network attempt.  (Modelled from the spec.) -/
theorem breaker_halfopen_trial :
    (∀ (b : Breaker) (now : Nat), b.state = .Open →
        b.lastTransition + b.cooldown ≤ now →
        b.beginCall now =
          (.Attempt, { b with state := .HalfOpen, lastTransition := now }))
    ∧ (∀ (b : Breaker) (now2 : Nat), b.state = .HalfOpen →
        (b.record now2 true).state = .Closed ∧ (b.record now2 true).failures = 0)
    ∧ (∀ (b : Breaker) (now2 : Nat), b.state = .HalfOpen →
        (b.record now2 false).state = .Open
        ∧ (b.record now2 false).lastTransition = now2
        ∧ (∀ now3 : Nat, now3 < now2 + b.cooldown →
            (b.record now2 false).beginCall now3 = (.CircuitOpen, b.record now2 false)))
    ∧ (∀ (b : Breaker) (now : Nat), b.state = .HalfOpen →
        b.beginCall now = (.CircuitOpen, b)) := by
  refine ⟨?_, ?_, ?_, ?_⟩
  · intro b now h hle
    obtain ⟨st, f, lt, th, cdn⟩ := b
    simp only at h hle
    subst h
    have : ¬ now < lt + cdn := by omega
    simp [Breaker.beginCall, this]
  · intro b now2 h
    obtain ⟨st, f, lt, th, cdn⟩ := b
    simp only at h
    subst h
    simp [Breaker.record]
  · intro b now2 h
    obtain ⟨st, f, lt, th, cdn⟩ := b
    simp only at h
    subst h
    refine ⟨by simp [Breaker.record], by simp [Breaker.record], ?_⟩
    intro now3 hlt
    simp only at hlt
    simp [Breaker.record, Breaker.beginCall, hlt]
  · intro b now h
    obtain ⟨st, f, lt, th, cdn⟩ := b
    simp only at h
    subst h
    simp [Breaker.beginCall]

/-- Witness for `breaker_halfopen_trial` on a concrete open breaker whose
cool-down has elapsed, and a concrete half-open breaker. -/
theorem breaker_halfopen_trial_witness :
    (Breaker.mk .Open 5 10 5 30).beginCall 40 =
      (.Attempt, Breaker.mk .HalfOpen 5 40 5 30)
    ∧ ((Breaker.mk .HalfOpen 5 40 5 30).record 45 true).state = .Closed
    ∧ ((Breaker.mk .HalfOpen 5 40 5 30).record 45 false).state = .Open
    ∧ ((Breaker.mk .HalfOpen 5 40 5 30).record 45 false).beginCall 50 =
        (.CircuitOpen, (Breaker.mk .HalfOpen 5 40 5 30).record 45 false)
    ∧ (Breaker.mk .HalfOpen 5 40 5 30).beginCall 41 =
        (.CircuitOpen, Breaker.mk .HalfOpen 5 40 5 30) :=
  ⟨breaker_halfopen_trial.1 ⟨.Open, 5, 10, 5, 30⟩ 40 rfl (by decide),
   (breaker_halfopen_trial.2.1 ⟨.HalfOpen, 5, 40, 5, 30⟩ 45 rfl).1,
   (breaker_halfopen_trial.2.2.1 ⟨.HalfOpen, 5, 40, 5, 30⟩ 45 rfl).1,
   (breaker_halfopen_trial.2.2.1 ⟨.HalfOpen, 5, 40, 5, 30⟩ 45 rfl).2.2 50 (by decide),
   breaker_halfopen_trial.2.2.2 ⟨.HalfOpen, 5, 40, 5, 30⟩ 41 rfl⟩

/-! Theorems about the payment and order handlers. -/

/-- C8: `POST /payments` is a constant function of its request — any two
runs with any bodies and headers produce the same response, namely
`{ status: "PAYMENT_SUCCESS" }` (a two-run noninterference statement). -/
theorem payments_noninterference {β : Type u} {γ : Type v}
    (b1 : β) (h1 : γ) (b2 : β) (h2 : γ) :
    paymentsHandler b1 h1 = paymentsHandler b2 h2
    ∧ paymentsHandler b1 h1 = ⟨"PAYMENT_SUCCESS"⟩ :=
  ⟨rfl, rfl⟩

/-- C10: a successful `POST /orders` appends exactly one row
`(id, "PLACED")` to the `orders` table, enqueues exactly one
`"order.created"` job carrying that id, and responds with the same id and
status `"PLACED"`; the row id, the job's `orderId` and the response's
`orderId` are all equal. -/
theorem postOrders_one_row_one_job (s : OrdersState) (id : String) :
    (postOrders s id).1.orders = s.orders ++ [(id, "PLACED")]
    ∧ (postOrders s id).1.orders.length = s.orders.length + 1
    ∧ (postOrders s id).1.queue = s.queue ++ [OrderJob.mk "order.created" id]
    ∧ (postOrders s id).1.queue.length = s.queue.length + 1
    ∧ ((postOrders s id).1.orders.getLast?).map Prod.fst = some id
    ∧ ((postOrders s id).1.queue.getLast?).map OrderJob.orderId = some id
    ∧ (postOrders s id).2 = ⟨id, "PLACED"⟩ := by
  refine ⟨rfl, by simp [postOrders], rfl, by simp [postOrders], ?_, ?_, rfl⟩
  · simp [postOrders]
  · simp [postOrders]

/-! Theorems about the gateway routing table. -/

/-- Helper: a successful mount match pins down the next path character. -/
theorem mountMatches_cons {a : Char} {as l : List Char}
    (h : mountMatches (a :: as) l = true) :
    ∃ l', l = a :: l' ∧ mountMatches as l' = true := by
  cases l with
  | nil => simp [mountMatches] at h
  | cons b bs =>
    simp only [mountMatches, Bool.and_eq_true, beq_iff_eq] at h
    exact ⟨bs, by rw [h.1], h.2⟩


/-- Helper: two matching mounts that both start with `/` agree on their
second character. -/
theorem mountMatches_agree {a b : Char} {as bs l : List Char}
    (h1 : mountMatches ('/' :: a :: as) l = true)
    (h2 : mountMatches ('/' :: b :: bs) l = true) : a = b := by
  obtain ⟨l1, hl1, hm1⟩ := mountMatches_cons h1
  obtain ⟨l2, hl2, _⟩ := mountMatches_cons hm1
  obtain ⟨l3, hl3, hm3⟩ := mountMatches_cons h2
  obtain ⟨l4, hl4, _⟩ := mountMatches_cons hm3
  rw [hl1] at hl3
  rw [hl2] at hl3
  rw [hl4] at hl3
  simp at hl3
  exact hl3.1

/-- Helper: at most one gateway mount matches any given path, because the
four mounts disagree pairwise on their second character. -/
theorem gateway_atMostOne (path : String) :
    (gatewayRoutes.filter (fun e => mountMatches e.1.toList path.toList)).length ≤ 1 := by
  by_cases m1 : mountMatches ['/', 'a', 'u', 't', 'h'] path.data = true <;>
    by_cases m2 :
      mountMatches ['/', 'r', 'e', 's', 't', 'a', 'u', 'r', 'a', 'n', 't', 's'] path.data = true <;>
    by_cases m3 : mountMatches ['/', 'o', 'r', 'd', 'e', 'r', 's'] path.data = true <;>
    by_cases m4 : mountMatches ['/', 'p', 'a', 'y', 'm', 'e', 'n', 't', 's'] path.data = true
  · exact absurd (mountMatches_agree m1 m2) (by decide)
  · exact absurd (mountMatches_agree m1 m2) (by decide)
  · exact absurd (mountMatches_agree m1 m2) (by decide)
  · exact absurd (mountMatches_agree m1 m2) (by decide)
  · exact absurd (mountMatches_agree m1 m3) (by decide)
  · exact absurd (mountMatches_agree m1 m3) (by decide)
  · exact absurd (mountMatches_agree m1 m4) (by decide)
  · simp [gatewayRoutes, List.filter_cons, m1, m2, m3, m4]
  · exact absurd (mountMatches_agree m2 m3) (by decide)
  · exact absurd (mountMatches_agree m2 m3) (by decide)
  · exact absurd (mountMatches_agree m2 m4) (by decide)
  · simp [gatewayRoutes, List.filter_cons, m1, m2, m3, m4]
  · exact absurd (mountMatches_agree m3 m4) (by decide)
  · simp [gatewayRoutes, List.filter_cons, m1, m2, m3, m4]
  · simp [gatewayRoutes, List.filter_cons, m1, m2, m3, m4]
  · simp [gatewayRoutes, List.filter_cons, m1, m2, m3, m4]

/-- Helper: express first-match routing is the head of the match list. -/
theorem routeFirst_eq_head (table : List (String × String)) (path : String) :
    routeFirst table path =
      ((table.filter (fun e => mountMatches e.1.toList path.toList)).head?).map Prod.snd := by
  induction table with
  | nil => rfl
  | cons e rest ih =>
    obtain ⟨p, svc⟩ := e
    simp only [routeFirst, List.filter_cons]
    by_cases h : mountMatches p.toList path.toList = true
    · rw [if_pos h, if_pos h]
      rfl
    · rw [if_neg h, if_neg h]
      exact ih

/-- Helper: folding `betterOf` over a list of at most one entry returns
its head. -/
theorem foldl_betterOf_short (l : List (String × String)) (h : l.length ≤ 1) :
    List.foldl betterOf none l = l.head? := by
  rcases l with _ | ⟨e, _ | ⟨f, r⟩⟩
  · rfl
  · simp [List.foldl, betterOf]
  · simp at h

/-- C6: on the gateway's mount table, express first-match dispatch equals
the spec's longest-matching-prefix resolution for every request path (the
four mounts are pairwise exclusive); a path matched by no registered
mount resolves to nothing for any table — surfaced by `gatewayRespond` as
the not-found action with no forwarding; and `/orders/123` with no
service registered under `/orders` routes to nothing. -/
theorem gateway_routing :
    (∀ path : String, routeFirst gatewayRoutes path = routeLongest gatewayRoutes path)
    ∧ (∀ (table : List (String × String)) (path : String),
        (∀ e ∈ table, mountMatches e.1.toList path.toList = false) →
        routeFirst table path = none)
    ∧ routeFirst [("/auth", "http://auth-service:4001"),
        ("/restaurants", "http://restaurant-service:4002"),
        ("/payments", "http://payment-service:4004")] "/orders/123" = none
    ∧ gatewayRespond "/unknown/9" = .NotFound := by
  refine ⟨?_, ?_, by decide, by decide⟩
  · intro path
    rw [routeFirst_eq_head]
    unfold routeLongest
    rw [foldl_betterOf_short _ (gateway_atMostOne path)]
  · intro table path hall
    induction table with
    | nil => rfl
    | cons e rest ih =>
      obtain ⟨p, svc⟩ := e
      have h := hall (p, svc) (List.mem_cons_self _ _)
      simp only [routeFirst]
      rw [if_neg (by rw [h]; simp)]
      exact ih fun x hx => hall x (List.mem_cons_of_mem _ hx)

/-- Witness for `gateway_routing`: a one-entry table whose mount does not
match the path routes to nothing. -/
theorem gateway_routing_witness :
    routeFirst [("/auth", "http://auth-service:4001")] "/orders/123" = none :=
  gateway_routing.2.1 [("/auth", "http://auth-service:4001")] "/orders/123" (by decide)

/-! Theorems about the auth login handler. -/

/-- Helper: with pairwise-distinct emails (the `users` table has
`email UNIQUE`), two rows sharing an email are the same row. -/
theorem uniqueEmail_eq {users : List UserRow}
    (hu : users.Pairwise fun a b => a.email ≠ b.email) {u v : UserRow}
    (hum : u ∈ users) (hvm : v ∈ users) (he : u.email = v.email) : u = v := by
  induction users with
  | nil => cases hum
  | cons w rest ih =>
    obtain ⟨hw, hrest⟩ := List.pairwise_cons.mp hu
    rcases List.mem_cons.mp hum with rfl | hum2 <;>
      rcases List.mem_cons.mp hvm with rfl | hvm2
    · rfl
    · exact absurd he (hw v hvm2)
    · exact absurd he.symm (hw u hum2)
    · exact ih hrest hum2 hvm2

/-- C9: `POST /auth/login` responds 401 exactly when no row with the given
email exists or the comparison of the given password against the stored
hash fails; a row whose email matches and whose hash matches the password
yields a token whose payload carries that row's id and role (and is
therefore not a 401).  Assumes the `email UNIQUE` constraint of the
`users` schema. -/
theorem authLogin_spec (compare : String → String → Bool) (users : List UserRow)
    (email password : String)
    (hu : users.Pairwise fun a b => a.email ≠ b.email) :
    (authLogin compare users email password = .unauthorized ↔
      ((∀ u ∈ users, u.email ≠ email)
        ∨ (∃ u ∈ users, u.email = email ∧ compare password u.password = false)))
    ∧ (∀ u ∈ users, u.email = email → compare password u.password = true →
        authLogin compare users email password = .token u.id u.role) := by
  rcases hf : users.filter (fun u => u.email == email) with _ | ⟨u0, tl⟩
  · have hnone : ∀ u ∈ users, u.email ≠ email := by
      intro u hm
      have := List.filter_eq_nil_iff.mp hf u hm
      simpa using this
    constructor
    · rw [authLogin, hf]
      exact ⟨fun _ => Or.inl hnone, fun _ => rfl⟩
    · intro u hm he _
      exact absurd he (hnone u hm)
  · have hu0 : u0 ∈ users ∧ u0.email = email := by
      have := List.mem_filter.mp (hf ▸ List.mem_cons_self u0 tl)
      simpa using this
    by_cases hc : compare password u0.password = true
    · have htok : authLogin compare users email password = .token u0.id u0.role := by
        rw [authLogin, hf]
        exact if_pos hc
      constructor
      · rw [htok]
        constructor
        · intro h
          cases h
        · rintro (h | ⟨u, hm, he, hcf⟩)
          · exact absurd hu0.2 (h u0 hu0.1)
          · have : u = u0 := uniqueEmail_eq hu hm hu0.1 (he.trans hu0.2.symm)
            rw [this] at hcf
            rw [hc] at hcf
            cases hcf
      · intro u hm he _
        have : u = u0 := uniqueEmail_eq hu hm hu0.1 (he.trans hu0.2.symm)
        rw [htok, this]
    · have hun : authLogin compare users email password = .unauthorized := by
        rw [authLogin, hf]
        exact if_neg hc
      constructor
      · rw [hun]
        refine ⟨fun _ => Or.inr ⟨u0, hu0.1, hu0.2, ?_⟩, fun _ => rfl⟩
        simpa using hc
      · intro u hm he hct
        have : u = u0 := uniqueEmail_eq hu hm hu0.1 (he.trans hu0.2.symm)
        rw [this] at hct
        exact absurd hct hc

/-- Witness for `authLogin_spec`: one registered user; the right
password yields that user's token, a missing email yields 401. -/
theorem authLogin_spec_witness :
    authLogin (fun p h => (p ++ "!") == h)
      [⟨"u1", "a@x.com", "pw!", "ADMIN"⟩] "a@x.com" "pw" = .token "u1" "ADMIN"
    ∧ authLogin (fun p h => (p ++ "!") == h)
      [⟨"u1", "a@x.com", "pw!", "ADMIN"⟩] "b@x.com" "pw" = .unauthorized :=
  ⟨(authLogin_spec (fun p h => (p ++ "!") == h)
      [⟨"u1", "a@x.com", "pw!", "ADMIN"⟩] "a@x.com" "pw" (by simp)).2
      ⟨"u1", "a@x.com", "pw!", "ADMIN"⟩ (by simp) rfl (by decide),
   (authLogin_spec (fun p h => (p ++ "!") == h)
      [⟨"u1", "a@x.com", "pw!", "ADMIN"⟩] "b@x.com" "pw" (by simp)).1.mpr
      (Or.inl (by decide))⟩
